import Mathlib

/-!
Verification of the `epkgs/query` expression/rendering core.

We shallowly embed the `clause` package: Go interface values that appear as
`Value`/`Values` fields become the sum type `GoVal`; the `Builder` sink
becomes an explicit state record (`BState`) holding the emitted SQL text, the
appended parameter list and the accumulated errors; every `Build` /
`NegationBuild` method becomes a state-passing function.  The canonical sink
follows the repository contract (backtick identifier quoting, 1-indexed
positional placeholders written as `?N`, `AddVar` joining several placeholders
of one call with a comma, `AddError` appending to an error list).
-/

namespace Clause

/-- Go dynamic values as they occur in `Value`/`Values` fields: `nil`, scalars,
a nil-valued typed pointer (the `eqNilReflect` case), and the list types
recognized by the `Eq`/`Neq` type switches (`[]string`, `[]int`, `[]int32`,
`[]int64`, `[]uint`, `[]uint32`, `[]uint64`, `[]interface\x7b\x7d`). -/
inductive GoVal where
  | vnull : GoVal
  | vint : Int → GoVal
  | vstr : String → GoVal
  | vbool : Bool → GoVal
  | vptrNil : GoVal
  | listStr : List String → GoVal
  | listInt : List Int → GoVal
  | listInt32 : List Int → GoVal
  | listInt64 : List Int → GoVal
  | listUInt : List Nat → GoVal
  | listUInt32 : List Nat → GoVal
  | listUInt64 : List Nat → GoVal
  | listAny : List GoVal → GoVal
  deriving Repr

/-- Builder/sink state: emitted SQL text, appended parameter values (in
order), and errors reported through `AddError`. -/
structure BState where
  sql : String
  vars : List GoVal
  errs : List String
  deriving Repr

/-- The empty sink, as a fresh `mockBuilder`. -/
def mkB : BState := { sql := "", vars := [], errs := [] }

/-- Models `WriteString`: append raw text to the SQL stream. -/
def writeString (s : String) (b : BState) : BState :=
  { b with sql := b.sql ++ s }

/-- Models `WriteByte`: append a single byte/character to the SQL stream. -/
def writeByte (c : Char) (b : BState) : BState :=
  { b with sql := b.sql.push c }

/-- Models `WriteQuoted`: append a backtick-quoted identifier (sink quoting rule of
the repository test builder). -/
def writeQuoted (field : String) (b : BState) : BState :=
  { b with sql := b.sql ++ "`" ++ field ++ "`" }

/-- Positional placeholder token for the (1-indexed) parameter `n`. -/
def placeholder (n : Nat) : String := "?" ++ toString n

/-- One iteration of the `AddVar` loop body: append the value, then write the
placeholder numbered by the new parameter-list length. -/
def addVarOne (v : GoVal) (b : BState) : BState :=
  let vs := b.vars ++ [v]
  { b with vars := vs, sql := b.sql ++ placeholder vs.length }

/-- Iterations of the `AddVar` loop after the first: a comma precedes each
further placeholder. -/
def addVarTail : List GoVal → BState → BState
  | [], b => b
  | v :: rest, b => addVarTail rest (addVarOne v (writeString "," b))

/-- Models `AddVar(builder, vars...)`: for each value in order, record it in the
parameter list and emit its placeholder, separating successive placeholders of
the same call with a comma. -/
def addVar (vs : List GoVal) (b : BState) : BState :=
  match vs with
  | [] => b
  | v :: rest => addVarTail rest (addVarOne v b)

/-- Models `AddError`: record an error on the sink. -/
def addError (e : String) (b : BState) : BState :=
  { b with errs := b.errs ++ [e] }

/-- Models `eqNilReflect`: true exactly for a typed pointer that is nil-valued. -/
def eqNilReflect : GoVal → Bool
  | .vptrNil => true
  | _ => false

/-- Models `eqNil`: the interface value is `nil`, or a typed pointer that is
nil-valued at inspection time. -/
def eqNil (v : GoVal) : Bool :=
  match v with
  | .vnull => true
  | _ => eqNilReflect v

/-- The element list of a value recognized by the `Eq`/`Neq` type switches
(each recognized slice case is routed to `buildEqArray`/`buildNeqArray` over
its elements); `none` for every non-list value. -/
def asList : GoVal → Option (List GoVal)
  | .listStr xs => some (xs.map .vstr)
  | .listInt xs => some (xs.map .vint)
  | .listInt32 xs => some (xs.map .vint)
  | .listInt64 xs => some (xs.map .vint)
  | .listUInt xs => some (xs.map (fun n => .vint (Int.ofNat n)))
  | .listUInt32 xs => some (xs.map (fun n => .vint (Int.ofNat n)))
  | .listUInt64 xs => some (xs.map (fun n => .vint (Int.ofNat n)))
  | .listAny xs => some xs
  | _ => none

/-- Whether the Go type assertion `v.([]interface\x7b\x7d)` succeeds (the
nested-list check used by `IN`): only the untyped heterogeneous list. -/
def isListAny : GoVal → Bool
  | .listAny _ => true
  | _ => false

/-- Expression tree of the `clause` package. -/
inductive Expr where
  | eq : String → GoVal → Expr
  | neq : String → GoVal → Expr
  | gt : String → GoVal → Expr
  | gte : String → GoVal → Expr
  | lt : String → GoVal → Expr
  | lte : String → GoVal → Expr
  | like : String → GoVal → Expr
  | inExpr : String → List GoVal → Expr
  | andExpr : List Expr → Expr
  | orExpr : List Expr → Expr
  | notExpr : List Expr → Expr
  deriving Repr

/-- Which expression types have a `NegationBuild` method, i.e. implement the
`NegationExpressionBuilder` interface: all eight leaves; none of the
combinators. -/
def hasNegation : Expr → Bool
  | .eq _ _ => true
  | .neq _ _ => true
  | .gt _ _ => true
  | .gte _ _ => true
  | .lt _ _ => true
  | .lte _ _ => true
  | .like _ _ => true
  | .inExpr _ _ => true
  | .andExpr _ => false
  | .orExpr _ => false
  | .notExpr _ => false

/-- Loop tail of `buildEqArray`/`buildNeqArray`: a comma is written before
each element after the first, then the element is added as one parameter. -/
def buildArrayLoop : List GoVal → BState → BState
  | [], b => b
  | v :: rest, b => buildArrayLoop rest (addVar [v] (writeByte ',' b))

/-- Models `buildEqArray`: empty list renders ` IN (NULL)`; otherwise ` IN (` then
each element as a comma-separated parameter, then `)`. -/
def buildEqArray (values : List GoVal) (b : BState) : BState :=
  match values with
  | [] => writeString " IN (NULL)" b
  | v :: rest => writeByte ')' (buildArrayLoop rest (addVar [v] (writeString " IN (" b)))

/-- Models `buildNeqArray`: empty list renders ` NOT IN (NULL)`; otherwise
` NOT IN (` then each element as a comma-separated parameter, then `)`. -/
def buildNeqArray (values : List GoVal) (b : BState) : BState :=
  match values with
  | [] => writeString " NOT IN (NULL)" b
  | v :: rest => writeByte ')' (buildArrayLoop rest (addVar [v] (writeString " NOT IN (" b)))

/-- Models `Eq.Build`: quoted column; a recognized list value goes through
`buildEqArray`; otherwise a nil value renders ` IS NULL` and any other value
renders ` = ` plus one parameter. -/
def eqBuild (column : String) (value : GoVal) (b : BState) : BState :=
  let b1 := writeQuoted column b
  match asList value with
  | some xs => buildEqArray xs b1
  | none =>
    if eqNil value then writeString " IS NULL" b1
    else addVar [value] (writeString " = " b1)

/-- Models `Neq.Build`: quoted column; a recognized list value goes through
`buildNeqArray`; otherwise a nil value renders ` IS NOT NULL` and any other
value renders ` <> ` plus one parameter. -/
def neqBuild (column : String) (value : GoVal) (b : BState) : BState :=
  let b1 := writeQuoted column b
  match asList value with
  | some xs => buildNeqArray xs b1
  | none =>
    if eqNil value then writeString " IS NOT NULL" b1
    else addVar [value] (writeString " <> " b1)

/-- Models `Gt.Build`: `col > param`. -/
def gtBuild (column : String) (value : GoVal) (b : BState) : BState :=
  addVar [value] (writeString " > " (writeQuoted column b))

/-- Models `Gte.Build`: `col >= param`. -/
def gteBuild (column : String) (value : GoVal) (b : BState) : BState :=
  addVar [value] (writeString " >= " (writeQuoted column b))

/-- Models `Lt.Build`: `col < param`. -/
def ltBuild (column : String) (value : GoVal) (b : BState) : BState :=
  addVar [value] (writeString " < " (writeQuoted column b))

/-- Models `Lte.Build`: `col <= param`. -/
def lteBuild (column : String) (value : GoVal) (b : BState) : BState :=
  addVar [value] (writeString " <= " (writeQuoted column b))

/-- Models `Like.Build`: `col LIKE param`, unconditionally, for any value. -/
def likeBuild (column : String) (value : GoVal) (b : BState) : BState :=
  addVar [value] (writeString " LIKE " (writeQuoted column b))

/-- Models `Like.NegationBuild`: `col NOT LIKE param`. -/
def likeNegationBuild (column : String) (value : GoVal) (b : BState) : BState :=
  addVar [value] (writeString " NOT LIKE " (writeQuoted column b))

/-- Models `IN.Build`: quoted column; empty value list renders ` IN (NULL)`; a single
value that is not an untyped nested list collapses to ` = param`; otherwise
` IN (params)` with one parameter per element. -/
def inBuild (column : String) (values : List GoVal) (b : BState) : BState :=
  let b1 := writeQuoted column b
  match values with
  | [] => writeString " IN (NULL)" b1
  | [v] =>
    if isListAny v then writeByte ')' (addVar [v] (writeString " IN (" b1))
    else addVar [v] (writeString " = " b1)
  | vs => writeByte ')' (addVar vs (writeString " IN (" b1))

/-- Models `IN.NegationBuild`: quoted column; empty value list renders
` IS NOT NULL`; a single value that is not an untyped nested list collapses to
` <> param`; otherwise ` NOT IN (params)`. -/
def inNegationBuild (column : String) (values : List GoVal) (b : BState) : BState :=
  let b1 := writeQuoted column b
  match values with
  | [] => writeString " IS NOT NULL" b1
  | [v] =>
    if isListAny v then writeByte ')' (addVar [v] (writeString " NOT IN (" b1))
    else addVar [v] (writeString " <> " b1)
  | vs => writeByte ')' (addVar vs (writeString " NOT IN (" b1))

/-- Models the `NegationBuild` dispatch: each leaf delegates exactly as the source does
(`Eq` to `Neq.Build`, `Gt` to `Lte.Build`, and so on).  The combinators have
no `NegationBuild` method; their case here is never invoked because every call
site first checks `hasNegation`, so it is modelled as the identity. -/
def negationBuild : Expr → BState → BState
  | .eq c v, b => neqBuild c v b
  | .neq c v, b => eqBuild c v b
  | .gt c v, b => lteBuild c v b
  | .gte c v, b => ltBuild c v b
  | .lt c v, b => gteBuild c v b
  | .lte c v, b => gtBuild c v b
  | .like c v, b => likeNegationBuild c v b
  | .inExpr c vs, b => inNegationBuild c vs b
  | .andExpr _, b => b
  | .orExpr _, b => b
  | .notExpr _, b => b

mutual

/-- Expression `Build` dispatch over every variant, including the combinator
logic of `AndExpr.Build`, `OrExpr.Build` and `NotExpr.Build`. -/
def build : Expr → BState → BState
  | .eq c v, b => eqBuild c v b
  | .neq c v, b => neqBuild c v b
  | .gt c v, b => gtBuild c v b
  | .gte c v, b => gteBuild c v b
  | .lt c v, b => ltBuild c v b
  | .lte c v, b => lteBuild c v b
  | .like c v, b => likeBuild c v b
  | .inExpr c vs, b => inBuild c vs b
  | .andExpr es, b =>
    if 1 < es.length then writeByte ')' (buildExprs es " AND " (writeByte '(' b))
    else buildExprs es " AND " b
  | .orExpr es, b =>
    if 1 < es.length then writeByte ')' (buildExprs es " OR " (writeByte '(' b))
    else buildExprs es " OR " b
  | .notExpr es, b =>
    if es.any hasNegation then
      if 1 < es.length then writeByte ')' (notSelfList es (writeByte '(' b))
      else notSelfList es b
    else
      let b1 := writeString "NOT " b
      if 1 < es.length then writeByte ')' (notTextualList es (writeByte '(' b1))
      else notTextualList es b1

/-- Models `buildExprs`: render a sibling list; the first element gets no joiner. -/
def buildExprs : List Expr → String → BState → BState
  | [], _, b => b
  | e :: rest, join, b => buildExprsTail rest join (build e b)

/-- Joiner loop of `buildExprs` for elements at positions above zero: a
single-child `OrExpr` sibling forces ` OR ` in place of the default joiner. -/
def buildExprsTail : List Expr → String → BState → BState
  | [], _, b => b
  | e :: rest, join, b =>
    let j := match e with
      | .orExpr [_] => " OR "
      | _ => join
    buildExprsTail rest join (build e (writeString j b))

/-- Self-negating loop of `NotExpr.Build` (first element, no joiner): a child
with the negation capability renders through `NegationBuild`, any other child
falls back to its normal `Build`. -/
def notSelfList : List Expr → BState → BState
  | [], b => b
  | e :: rest, b =>
    notSelfTail rest (if hasNegation e then negationBuild e b else build e b)

/-- Self-negating loop of `NotExpr.Build` after the first element: joined with
` AND `. -/
def notSelfTail : List Expr → BState → BState
  | [], b => b
  | e :: rest, b =>
    let b1 := writeString " AND " b
    notSelfTail rest (if hasNegation e then negationBuild e b1 else build e b1)

/-- Textual loop of `NotExpr.Build` (first element, no joiner). -/
def notTextualList : List Expr → BState → BState
  | [], b => b
  | e :: rest, b => notTextualTail rest (build e b)

/-- Textual loop of `NotExpr.Build` after the first element: an `OrExpr` child
of any arity is preceded by ` OR `, every other child by ` AND `. -/
def notTextualTail : List Expr → BState → BState
  | [], b => b
  | e :: rest, b =>
    let j := match e with
      | .orExpr _ => " OR "
      | _ => " AND "
    notTextualTail rest (build e (writeString j b))

end

/-- The `And` constructor: no expressions give `nil`; exactly one expression
that is not an `OrExpr` is returned unchanged; otherwise (a lone `OrExpr`, or
two and more expressions) an `AndExpr` wrapper is produced. -/
def andCtor (exprs : List Expr) : Option Expr :=
  match exprs with
  | [] => none
  | [e] =>
    match e with
    | .orExpr _ => some (.andExpr [e])
    | _ => some e
  | es => some (.andExpr es)

/-- The `Or` constructor: no expressions give `nil`; otherwise an `OrExpr`. -/
def orCtor (exprs : List Expr) : Option Expr :=
  match exprs with
  | [] => none
  | es => some (.orExpr es)

/-- The `Not` constructor: no expressions give `nil`; a single `AndExpr`
argument is unwrapped into its children; the result is a `NotExpr`. -/
def notCtor (exprs : List Expr) : Option Expr :=
  match exprs with
  | [] => none
  | [.andExpr es] => some (.notExpr es)
  | es => some (.notExpr es)

/-- The `Where` clause: an ordered list of top-level expressions. -/
structure Where where
  Exprs : List Expr

/-- The unwrap step at the head of `Where.Build`: a lone `AndExpr` at clause
root is replaced by its children. -/
def whereFlatten : List Expr → List Expr
  | [Expr.andExpr es] => es
  | es => es

/-- Models `Where.Build`: a lone `AndExpr` at clause root is unwrapped one level;
nothing is emitted when the resulting list is empty, otherwise ` WHERE `
followed by the siblings joined by `buildExprs` with default joiner ` AND `. -/
def Where.build (w : Where) (b : BState) : BState :=
  let exprs := whereFlatten w.Exprs
  if 0 < exprs.length then buildExprs exprs " AND " (writeString " WHERE " b)
  else b

/-- The `Pagination` clause: optional limit (`nil` pointer = unset) and an
offset whose zero value means unset. -/
structure Pagination where
  Limit : Option Int
  Offset : Int

/-- Models `Pagination.Build`: ` LIMIT param` when the limit is set and positive,
then ` OFFSET param` when the offset is positive; nothing otherwise. -/
def Pagination.build (p : Pagination) (b : BState) : BState :=
  let b1 := match p.Limit with
    | some l => if 0 < l then addVar [GoVal.vint l] (writeString " LIMIT " b) else b
    | none => b
  if 0 < p.Offset then addVar [GoVal.vint p.Offset] (writeString " OFFSET " b1)
  else b1

/-- Closed form of the text written by the `AddVar` loop after its first
iteration, with `n` parameters already present before the remaining `k`
iterations: a comma then the next placeholder, repeatedly. -/
def phTail (n : Nat) : Nat → String
  | 0 => ""
  | k + 1 => "," ++ placeholder (n + 1) ++ phTail (n + 1) k

/-- Closed form of the text written by one `AddVar` call adding `k` parameters
to a sink already holding `n`. -/
def phList (n : Nat) : Nat → String
  | 0 => ""
  | k + 1 => placeholder (n + 1) ++ phTail (n + 1) k

/-- Whether the Go type assertion to `OrExpr` succeeds. -/
def isOrExpr : Expr → Bool
  | .orExpr _ => true
  | _ => false

/-- Whether an expression is one of the two grouping combinators. -/
def isAndOr : Expr → Bool
  | .andExpr _ => true
  | .orExpr _ => true
  | _ => false

/-- Per-child rendering on the self-negating path of `NotExpr.Build`: a child
with the negation capability renders its inverse, any other child falls back
to its normal render. -/
def childNegRender (e : Expr) (b : BState) : BState :=
  if hasNegation e then negationBuild e b else build e b

/-- Generic joined walk over the siblings after the first: each child is
preceded by its joiner and then rendered. -/
def tailJoined (renderOne : Expr → BState → BState) (joiner : Expr → String) :
    List Expr → BState → BState
  | [], b => b
  | e :: rest, b => tailJoined renderOne joiner rest (renderOne e (writeString (joiner e) b))

/-- One step of the position-indexed sibling fold: a joiner precedes every
child at a position above zero, then the child is rendered. -/
def specStep (renderOne : Expr → BState → BState) (joiner : Expr → String)
    (acc : BState) (p : Nat × Expr) : BState :=
  renderOne p.2 (if 0 < p.1 then writeString (joiner p.2) acc else acc)

/-- Position-indexed formulation of a joined sibling list, following the
spec's wording: consecutive siblings are joined, the sibling at position zero
gets no joiner. -/
def specJoined (renderOne : Expr → BState → BState) (joiner : Expr → String)
    (es : List Expr) (b : BState) : BState :=
  (es.enum).foldl (specStep renderOne joiner) b

/-- Joiner of the textual `NOT` path: an `OrExpr` child (of any arity) is
preceded by ` OR `, every other child by ` AND `. -/
def orJoinerTextual (e : Expr) : String :=
  match e with
  | .orExpr _ => " OR "
  | _ => " AND "

/-- Joiner of a flat sibling list: a single-child `OrExpr` sibling forces
` OR ` in place of the list's default joiner. -/
def siblingJoiner (dflt : String) (e : Expr) : String :=
  match e with
  | .orExpr [_] => " OR "
  | _ => dflt

/-- Spec-side description of `NotExpr` rendering: if any child implements the
negation capability, every child is rendered through `childNegRender` joined
with ` AND `, parenthesized only for more than one child; otherwise the
literal `NOT ` is emitted and the children are rendered normally, joined with
` AND ` except that an `OrExpr` child is preceded by ` OR `, parenthesized
only for more than one child. -/
def specNotRender (es : List Expr) (b : BState) : BState :=
  if es.any hasNegation then
    if 1 < es.length then
      writeByte ')' (specJoined childNegRender (fun _ => " AND ") es (writeByte '(' b))
    else specJoined childNegRender (fun _ => " AND ") es b
  else
    let b1 := writeString "NOT " b
    if 1 < es.length then
      writeByte ')' (specJoined build orJoinerTextual es (writeByte '(' b1))
    else specJoined build orJoinerTextual es b1

/-- Spec-side description of only the textual `NOT` path (the literal `NOT `
followed by the children rendered normally). -/
def specNotTextualRender (es : List Expr) (b : BState) : BState :=
  let b1 := writeString "NOT " b
  if 1 < es.length then
    writeByte ')' (specJoined build orJoinerTextual es (writeByte '(' b1))
  else specJoined build orJoinerTextual es b1

theorem writeString_sql (s : String) (b : BState) : (writeString s b).sql = b.sql ++ s := rfl

theorem writeString_vars (s : String) (b : BState) : (writeString s b).vars = b.vars := rfl

theorem writeString_errs (s : String) (b : BState) : (writeString s b).errs = b.errs := rfl

theorem writeByte_vars (c : Char) (b : BState) : (writeByte c b).vars = b.vars := rfl

theorem writeByte_errs (c : Char) (b : BState) : (writeByte c b).errs = b.errs := rfl

theorem writeQuoted_sql (f : String) (b : BState) :
    (writeQuoted f b).sql = b.sql ++ "`" ++ f ++ "`" := rfl

theorem writeQuoted_vars (f : String) (b : BState) : (writeQuoted f b).vars = b.vars := rfl

theorem writeQuoted_errs (f : String) (b : BState) : (writeQuoted f b).errs = b.errs := rfl

theorem push_comma (a : String) : a.push ',' = a ++ "," := by
  apply String.ext
  simp [String.data_push, String.data_append]

theorem push_paren_open (a : String) : a.push '(' = a ++ "(" := by
  apply String.ext
  simp [String.data_push, String.data_append]

theorem push_paren_close (a : String) : a.push ')' = a ++ ")" := by
  apply String.ext
  simp [String.data_push, String.data_append]

theorem writeByte_close_sql (b : BState) : (writeByte ')' b).sql = b.sql ++ ")" := by
  show b.sql.push ')' = b.sql ++ ")"
  exact push_paren_close b.sql

theorem addVarOne_eq (v : GoVal) (b : BState) :
    addVarOne v b =
      { sql := b.sql ++ placeholder (b.vars.length + 1)
        vars := b.vars ++ [v]
        errs := b.errs } := by
  simp [addVarOne]

theorem addVarTail_eq (vs : List GoVal) : ∀ b : BState,
    addVarTail vs b =
      { sql := b.sql ++ phTail b.vars.length vs.length
        vars := b.vars ++ vs
        errs := b.errs } := by
  induction vs with
  | nil =>
    intro b
    cases b
    simp [addVarTail, phTail]
  | cons v rest ih =>
    intro b
    show addVarTail rest (addVarOne v (writeString "," b)) = _
    rw [addVarOne_eq, ih]
    simp [phTail, writeString, String.append_assoc]

theorem addVar_eq (vs : List GoVal) (b : BState) :
    addVar vs b =
      { sql := b.sql ++ phList b.vars.length vs.length
        vars := b.vars ++ vs
        errs := b.errs } := by
  cases vs with
  | nil =>
    cases b
    simp [addVar, phList]
  | cons v rest =>
    show addVarTail rest (addVarOne v b) = _
    rw [addVarOne_eq, addVarTail_eq]
    simp [phList, String.append_assoc]

theorem phList_one (n : Nat) : phList n 1 = placeholder (n + 1) := by
  simp [phList, phTail]

theorem addVar_single_eq (v : GoVal) (b : BState) :
    addVar [v] b =
      { sql := b.sql ++ placeholder (b.vars.length + 1)
        vars := b.vars ++ [v]
        errs := b.errs } := by
  rw [addVar_eq]
  simp [phList_one]

theorem foldl_enumFrom_tail (r : Expr → BState → BState) (j : Expr → String) :
    ∀ (es : List Expr) (n : Nat) (b : BState),
      (List.enumFrom (n + 1) es).foldl (specStep r j) b = tailJoined r j es b := by
  intro es
  induction es with
  | nil => intro n b; rfl
  | cons e rest ih =>
    intro n b
    show ((n + 1, e) :: List.enumFrom (n + 2) rest).foldl (specStep r j) b = _
    rw [List.foldl_cons]
    show (List.enumFrom (n + 1 + 1) rest).foldl (specStep r j)
        (r e (if 0 < n + 1 then writeString (j e) b else b)) = _
    rw [if_pos (Nat.succ_pos n), ih (n + 1)]
    rfl

theorem specJoined_cons (r : Expr → BState → BState) (j : Expr → String)
    (e : Expr) (rest : List Expr) (b : BState) :
    specJoined r j (e :: rest) b = tailJoined r j rest (r e b) := by
  show ((0, e) :: List.enumFrom 1 rest).foldl (specStep r j) b = _
  rw [List.foldl_cons]
  show (List.enumFrom (0 + 1) rest).foldl (specStep r j)
      (r e (if 0 < 0 then writeString (j e) b else b)) = _
  rw [if_neg (by omega), foldl_enumFrom_tail r j rest 0]

theorem buildExprsTail_eq (join : String) :
    ∀ (es : List Expr) (b : BState),
      buildExprsTail es join b = tailJoined build (siblingJoiner join) es b := by
  intro es
  induction es with
  | nil => intro b; rfl
  | cons e rest ih =>
    intro b
    have step : buildExprsTail (e :: rest) join b
        = buildExprsTail rest join (build e (writeString (siblingJoiner join e) b)) := rfl
    rw [step, tailJoined]
    exact ih _

theorem buildExprs_eq_spec (es : List Expr) (join : String) (b : BState) :
    buildExprs es join b = specJoined build (siblingJoiner join) es b := by
  cases es with
  | nil => rfl
  | cons e rest =>
    rw [specJoined_cons, buildExprs]
    exact buildExprsTail_eq join rest _

theorem notSelfTail_eq :
    ∀ (es : List Expr) (b : BState),
      notSelfTail es b = tailJoined childNegRender (fun _ => " AND ") es b := by
  intro es
  induction es with
  | nil => intro b; rfl
  | cons e rest ih =>
    intro b
    rw [notSelfTail, tailJoined]
    exact ih _

theorem notSelfList_eq_spec (es : List Expr) (b : BState) :
    notSelfList es b = specJoined childNegRender (fun _ => " AND ") es b := by
  cases es with
  | nil => rfl
  | cons e rest =>
    rw [specJoined_cons, notSelfList]
    exact notSelfTail_eq rest _

theorem notTextualTail_eq :
    ∀ (es : List Expr) (b : BState),
      notTextualTail es b = tailJoined build orJoinerTextual es b := by
  intro es
  induction es with
  | nil => intro b; rfl
  | cons e rest ih =>
    intro b
    have step : notTextualTail (e :: rest) b
        = notTextualTail rest (build e (writeString (orJoinerTextual e) b)) := rfl
    rw [step, tailJoined]
    exact ih _

theorem notTextualList_eq_spec (es : List Expr) (b : BState) :
    notTextualList es b = specJoined build orJoinerTextual es b := by
  cases es with
  | nil => rfl
  | cons e rest =>
    rw [specJoined_cons, notTextualList]
    exact notTextualTail_eq rest _

theorem notExpr_build_eq_spec (es : List Expr) (b : BState) :
    build (Expr.notExpr es) b = specNotRender es b := by
  rw [build, specNotRender]
  by_cases h : es.any hasNegation = true
  · simp [h, notSelfList_eq_spec]
  · simp [h, notTextualList_eq_spec]

/-- C6: the negated render of `Gt` is state-for-state identical to the normal
render of `Lte` (same text, same parameter sequence, same errors), `Gte`
negates to `Lt`, `Lt` to `Gte`, `Lte` to `Gt`, and `Eq` and `Neq` negate to
each other. -/
theorem C6_operator_inversion :
    ∀ (c : String) (v : GoVal) (b : BState),
      negationBuild (Expr.gt c v) b = build (Expr.lte c v) b ∧
      negationBuild (Expr.gte c v) b = build (Expr.lt c v) b ∧
      negationBuild (Expr.lt c v) b = build (Expr.gte c v) b ∧
      negationBuild (Expr.lte c v) b = build (Expr.gt c v) b ∧
      negationBuild (Expr.eq c v) b = build (Expr.neq c v) b ∧
      negationBuild (Expr.neq c v) b = build (Expr.eq c v) b := by
  intro c v b
  exact ⟨rfl, rfl, rfl, rfl, rfl, rfl⟩

/-- C7: an `Eq` whose value is the nil interface value, or a typed pointer
that is nil-valued at inspection time, renders exactly the quoted column
followed by ` IS NULL` and appends no parameter; the `Neq` analog renders
` IS NOT NULL` with no parameter. -/
theorem C7_nil_renders_is_null :
    ∀ (c : String) (b : BState),
      (build (Expr.eq c GoVal.vnull) b).sql = b.sql ++ "`" ++ c ++ "`" ++ " IS NULL" ∧
      (build (Expr.eq c GoVal.vnull) b).vars = b.vars ∧
      (build (Expr.eq c GoVal.vptrNil) b).sql = b.sql ++ "`" ++ c ++ "`" ++ " IS NULL" ∧
      (build (Expr.eq c GoVal.vptrNil) b).vars = b.vars ∧
      (build (Expr.neq c GoVal.vnull) b).sql = b.sql ++ "`" ++ c ++ "`" ++ " IS NOT NULL" ∧
      (build (Expr.neq c GoVal.vnull) b).vars = b.vars ∧
      (build (Expr.neq c GoVal.vptrNil) b).sql = b.sql ++ "`" ++ c ++ "`" ++ " IS NOT NULL" ∧
      (build (Expr.neq c GoVal.vptrNil) b).vars = b.vars := by
  intro c b
  exact ⟨rfl, rfl, rfl, rfl, rfl, rfl, rfl, rfl⟩

/-- C1 counterexample: `Like` with the non-string value `42` renders
`` `name` LIKE ?1 `` with the integer bound as a parameter and reports no
error at all through the sink's error channel, contradicting the claim that a
non-string value fails with a typed error surfaced through `AddError`. -/
theorem C1_cx_like_int_renders_without_error :
    (build (Expr.like "name" (GoVal.vint 42)) mkB).errs = [] ∧
    (build (Expr.like "name" (GoVal.vint 42)) mkB).sql = "`name` LIKE ?1" ∧
    (build (Expr.like "name" (GoVal.vint 42)) mkB).vars = [GoVal.vint 42] :=
  ⟨rfl, rfl, rfl⟩

/-- C1 (amended): `Like.Build` emits the quoted column, ` LIKE ` and one
parameter placeholder for every value, string or not; the value is appended as
the single parameter and no error is ever reported through the sink's error
channel (the string-type check lives in the ent adapter, not in this core
render). -/
theorem C1_like_renders_any_value :
    ∀ (c : String) (v : GoVal) (b : BState),
      build (Expr.like c v) b = addVar [v] (writeString " LIKE " (writeQuoted c b)) ∧
      (build (Expr.like c v) b).sql
        = b.sql ++ "`" ++ c ++ "`" ++ " LIKE " ++ placeholder (b.vars.length + 1) ∧
      (build (Expr.like c v) b).vars = b.vars ++ [v] ∧
      (build (Expr.like c v) b).errs = b.errs := by
  intro c v b
  refine ⟨rfl, ?_, rfl, rfl⟩
  show (addVar [v] (writeString " LIKE " (writeQuoted c b))).sql = _
  rw [addVar_single_eq]
  simp [writeString, writeQuoted]

/-- C2 counterexample: `Like` does implement the negation capability (it has a
`NegationBuild` method), so a `NotExpr` whose only child is a `Like` renders
through the self-negating path as `` `n` NOT LIKE ?1 ``, not through the
textual path with a literal `NOT ` prefix. -/
theorem C2_cx_like_has_negation_capability :
    hasNegation (Expr.like "n" (GoVal.vstr "x")) = true ∧
    (build (Expr.notExpr [Expr.like "n" (GoVal.vstr "x")]) mkB).sql = "`n` NOT LIKE ?1" ∧
    (build (Expr.notExpr [Expr.like "n" (GoVal.vstr "x")]) mkB).sql ≠ "NOT `n` LIKE ?1" := by
  refine ⟨rfl, rfl, by decide⟩

/-- C2 (amended): the negation capability is implemented by the six comparison
leaves, IN, and also Like; it is not implemented by `AndExpr` or `OrExpr`;
consequently a `NotExpr` whose children are all `AndExpr`/`OrExpr` nodes takes
the textual path with a literal `NOT ` prefix. -/
theorem C2_negation_capability_set :
    (∀ (c : String) (v : GoVal),
       hasNegation (Expr.eq c v) = true ∧ hasNegation (Expr.neq c v) = true ∧
       hasNegation (Expr.gt c v) = true ∧ hasNegation (Expr.gte c v) = true ∧
       hasNegation (Expr.lt c v) = true ∧ hasNegation (Expr.lte c v) = true ∧
       hasNegation (Expr.like c v) = true) ∧
    (∀ (c : String) (vs : List GoVal), hasNegation (Expr.inExpr c vs) = true) ∧
    (∀ es : List Expr,
       hasNegation (Expr.andExpr es) = false ∧ hasNegation (Expr.orExpr es) = false) ∧
    (∀ (es : List Expr) (b : BState), (∀ e ∈ es, isAndOr e = true) →
       build (Expr.notExpr es) b = specNotTextualRender es b) := by
  refine ⟨fun c v => ⟨rfl, rfl, rfl, rfl, rfl, rfl, rfl⟩, fun c vs => rfl,
    fun es => ⟨rfl, rfl⟩, ?_⟩
  intro es b hall
  have hneg : es.any hasNegation = false := by
    rw [List.any_eq_false]
    intro e he
    have h1 := hall e he
    cases e <;> simp_all [isAndOr, hasNegation]
  rw [build, specNotTextualRender]
  simp [hneg, notTextualList_eq_spec]

/-- C2 witness: the amended textual-path statement applied to a concrete
`NotExpr` whose only child is an `OrExpr`. -/
theorem C2_witness :
    (∀ e ∈ ([Expr.orExpr [Expr.eq "a" (GoVal.vint 1)]] : List Expr), isAndOr e = true) ∧
    build (Expr.notExpr [Expr.orExpr [Expr.eq "a" (GoVal.vint 1)]]) mkB
      = specNotTextualRender [Expr.orExpr [Expr.eq "a" (GoVal.vint 1)]] mkB :=
  ⟨by decide, C2_negation_capability_set.2.2.2
    [Expr.orExpr [Expr.eq "a" (GoVal.vint 1)]] mkB (by decide)⟩

/-- C3: `NotExpr.Build` coincides with the spec description: when any child
has the negation capability every child is rendered through it (falling back
to its normal render when it lacks it), joined with ` AND ` and parenthesized
only for more than one child; when no child has it, the literal `NOT ` is
emitted and the children are rendered normally.  In particular
`Not(Eq(a,1))` renders `` `a` <> ?1 `` with no literal `NOT`, and
`Not(Or(Eq(a,1),Eq(a,2)))` renders ``NOT (`a` = ?1 OR `a` = ?2)``. -/
theorem C3_notexpr_two_paths :
    (∀ (es : List Expr) (b : BState), build (Expr.notExpr es) b = specNotRender es b) ∧
    ((notCtor [Expr.eq "a" (GoVal.vint 1)]).map
        (fun e => ((build e mkB).sql, (build e mkB).vars))
      = some ("`a` <> ?1", [GoVal.vint 1])) ∧
    (((orCtor [Expr.eq "a" (GoVal.vint 1), Expr.eq "a" (GoVal.vint 2)]).bind
        (fun o => notCtor [o])).map (fun e => (build e mkB).sql)
      = some "NOT (`a` = ?1 OR `a` = ?2)") :=
  ⟨notExpr_build_eq_spec, rfl, rfl⟩

/-- C4: any flat sibling list rendered by `buildExprs` (used by the `Where`
clause with default joiner ` AND ` and by `AndExpr`'s child list) joins
consecutive siblings with the default joiner, except that a sibling at a
position above zero which is an `OrExpr` with exactly one child is preceded by
` OR ` instead. -/
theorem C4_sibling_joining :
    (∀ (es : List Expr) (join : String) (b : BState),
       buildExprs es join b = specJoined build (siblingJoiner join) es b) ∧
    (∀ (exprs : List Expr) (b : BState), 0 < (whereFlatten exprs).length →
       Where.build ⟨exprs⟩ b
         = specJoined build (siblingJoiner " AND ") (whereFlatten exprs)
             (writeString " WHERE " b)) ∧
    (∀ (es : List Expr) (b : BState), 1 < es.length →
       build (Expr.andExpr es) b
         = writeByte ')' (specJoined build (siblingJoiner " AND ") es (writeByte '(' b))) := by
  refine ⟨buildExprs_eq_spec, ?_, ?_⟩
  · intro exprs b h
    rw [Where.build]
    simp only [h, if_pos, buildExprs_eq_spec]
  · intro es b h
    rw [build]
    simp only [h, if_pos, buildExprs_eq_spec]

/-- C4 witness: the joining statement applied to a concrete `Where` of three
siblings whose middle sibling is a single-child `OrExpr`, and a concrete
two-child `AndExpr`. -/
theorem C4_witness :
    (0 < (whereFlatten [Expr.eq "a" (GoVal.vint 1),
        Expr.orExpr [Expr.eq "b" (GoVal.vint 2)], Expr.eq "c" (GoVal.vint 3)]).length ∧
      Where.build ⟨[Expr.eq "a" (GoVal.vint 1),
          Expr.orExpr [Expr.eq "b" (GoVal.vint 2)], Expr.eq "c" (GoVal.vint 3)]⟩ mkB
        = specJoined build (siblingJoiner " AND ")
            (whereFlatten [Expr.eq "a" (GoVal.vint 1),
              Expr.orExpr [Expr.eq "b" (GoVal.vint 2)], Expr.eq "c" (GoVal.vint 3)])
            (writeString " WHERE " mkB)) ∧
    (1 < ([Expr.eq "a" (GoVal.vint 1), Expr.eq "b" (GoVal.vint 2)] : List Expr).length ∧
      build (Expr.andExpr [Expr.eq "a" (GoVal.vint 1), Expr.eq "b" (GoVal.vint 2)]) mkB
        = writeByte ')' (specJoined build (siblingJoiner " AND ")
            [Expr.eq "a" (GoVal.vint 1), Expr.eq "b" (GoVal.vint 2)] (writeByte '(' mkB))) :=
  ⟨⟨by decide, C4_sibling_joining.2.1 _ mkB (by decide)⟩,
   ⟨by decide, C4_sibling_joining.2.2 _ mkB (by decide)⟩⟩

/-- C5: `IN` with no values renders `` `c` IN (NULL) `` with zero parameters
and its negation renders `` `c` IS NOT NULL ``; with exactly one value that is
not an untyped nested list it collapses to `` `c` = ?n `` with one parameter
(negation `` `c` <> ?n ``); with two or more values it renders
`` `c` IN (?n,...) `` with one parameter per element (negation `NOT IN`), and
a lone value that is itself a nested list also takes the `IN (...)` form with
that list bound as the single parameter. -/
theorem C5_in_three_shapes :
    ∀ (c : String) (b : BState),
      ((build (Expr.inExpr c []) b).sql = b.sql ++ "`" ++ c ++ "`" ++ " IN (NULL)" ∧
       (build (Expr.inExpr c []) b).vars = b.vars ∧
       (negationBuild (Expr.inExpr c []) b).sql = b.sql ++ "`" ++ c ++ "`" ++ " IS NOT NULL" ∧
       (negationBuild (Expr.inExpr c []) b).vars = b.vars) ∧
      (∀ v : GoVal, isListAny v = false →
        (build (Expr.inExpr c [v]) b).sql
          = b.sql ++ "`" ++ c ++ "`" ++ " = " ++ placeholder (b.vars.length + 1) ∧
        (build (Expr.inExpr c [v]) b).vars = b.vars ++ [v] ∧
        (negationBuild (Expr.inExpr c [v]) b).sql
          = b.sql ++ "`" ++ c ++ "`" ++ " <> " ++ placeholder (b.vars.length + 1) ∧
        (negationBuild (Expr.inExpr c [v]) b).vars = b.vars ++ [v]) ∧
      (∀ vs : List GoVal, 2 ≤ vs.length →
        (build (Expr.inExpr c vs) b).sql
          = b.sql ++ "`" ++ c ++ "`" ++ " IN (" ++ phList b.vars.length vs.length ++ ")" ∧
        (build (Expr.inExpr c vs) b).vars = b.vars ++ vs ∧
        (negationBuild (Expr.inExpr c vs) b).sql
          = b.sql ++ "`" ++ c ++ "`" ++ " NOT IN (" ++ phList b.vars.length vs.length ++ ")" ∧
        (negationBuild (Expr.inExpr c vs) b).vars = b.vars ++ vs) ∧
      (∀ xs : List GoVal,
        (build (Expr.inExpr c [GoVal.listAny xs]) b).sql
          = b.sql ++ "`" ++ c ++ "`" ++ " IN (" ++ placeholder (b.vars.length + 1) ++ ")" ∧
        (build (Expr.inExpr c [GoVal.listAny xs]) b).vars = b.vars ++ [GoVal.listAny xs] ∧
        (negationBuild (Expr.inExpr c [GoVal.listAny xs]) b).sql
          = b.sql ++ "`" ++ c ++ "`" ++ " NOT IN (" ++ placeholder (b.vars.length + 1) ++ ")" ∧
        (negationBuild (Expr.inExpr c [GoVal.listAny xs]) b).vars
          = b.vars ++ [GoVal.listAny xs]) := by
  intro c b
  refine ⟨⟨rfl, rfl, rfl, rfl⟩, ?_, ?_, ?_⟩
  · intro v h
    have hb : (isListAny v = true) = False := by simp [h]
    have s1 : build (Expr.inExpr c [v]) b
        = if isListAny v then writeByte ')' (addVar [v] (writeString " IN (" (writeQuoted c b)))
          else addVar [v] (writeString " = " (writeQuoted c b)) := rfl
    have s2 : negationBuild (Expr.inExpr c [v]) b
        = if isListAny v then
            writeByte ')' (addVar [v] (writeString " NOT IN (" (writeQuoted c b)))
          else addVar [v] (writeString " <> " (writeQuoted c b)) := rfl
    rw [s1, s2, if_neg (by simp [h]), if_neg (by simp [h]), addVar_single_eq, addVar_single_eq]
    simp [writeString, writeQuoted]
  · intro vs h
    match vs, h with
    | v1 :: v2 :: rest, _ =>
      have s1 : build (Expr.inExpr c (v1 :: v2 :: rest)) b
          = writeByte ')' (addVar (v1 :: v2 :: rest) (writeString " IN (" (writeQuoted c b))) := rfl
      have s2 : negationBuild (Expr.inExpr c (v1 :: v2 :: rest)) b
          = writeByte ')' (addVar (v1 :: v2 :: rest)
              (writeString " NOT IN (" (writeQuoted c b))) := rfl
      rw [s1, s2]
      refine ⟨?_, ?_, ?_, ?_⟩ <;>
        simp [writeByte_close_sql, writeByte_vars, addVar_eq, writeString, writeQuoted]
  · intro xs
    have s1 : build (Expr.inExpr c [GoVal.listAny xs]) b
        = writeByte ')' (addVar [GoVal.listAny xs] (writeString " IN (" (writeQuoted c b))) := rfl
    have s2 : negationBuild (Expr.inExpr c [GoVal.listAny xs]) b
        = writeByte ')' (addVar [GoVal.listAny xs]
            (writeString " NOT IN (" (writeQuoted c b))) := rfl
    rw [s1, s2]
    refine ⟨?_, ?_, ?_, ?_⟩ <;>
      simp [writeByte_close_sql, writeByte_vars, addVar_single_eq, writeString, writeQuoted]

/-- C5 witness: the single-value collapse and the two-value `IN` list applied
at concrete inputs. -/
theorem C5_witness :
    (isListAny (GoVal.vint 7) = false ∧
      (build (Expr.inExpr "id" [GoVal.vint 7]) mkB).sql
        = mkB.sql ++ "`" ++ "id" ++ "`" ++ " = " ++ placeholder (mkB.vars.length + 1)) ∧
    (2 ≤ ([GoVal.vint 1, GoVal.vint 2] : List GoVal).length ∧
      (build (Expr.inExpr "id" [GoVal.vint 1, GoVal.vint 2]) mkB).vars
        = mkB.vars ++ [GoVal.vint 1, GoVal.vint 2]) :=
  ⟨⟨rfl, ((C5_in_three_shapes "id" mkB).2.1 (GoVal.vint 7) rfl).1⟩,
   ⟨by decide,
    (((C5_in_three_shapes "id" mkB).2.2.1 [GoVal.vint 1, GoVal.vint 2] (by decide)).2.1)⟩⟩

/-- C8: `Pagination.Build` emits ` LIMIT param` exactly when the limit pointer
is set and positive and ` OFFSET param` exactly when the offset is positive,
each half independently, over every combination: both halves, limit only,
offset only with the limit unset, offset only with the limit set but
non-positive (a set zero limit emits nothing for its half), and neither half;
in particular limit 10 with offset 20 renders ` LIMIT ?1 OFFSET ?2` with
parameters `[10, 20]`, and an unset limit with a zero offset renders
nothing. -/
theorem C8_pagination_fragments :
    (∀ (l off : Int) (b : BState), 0 < l → 0 < off →
       (Pagination.build ⟨some l, off⟩ b).sql
         = b.sql ++ " LIMIT " ++ placeholder (b.vars.length + 1)
             ++ " OFFSET " ++ placeholder (b.vars.length + 2) ∧
       (Pagination.build ⟨some l, off⟩ b).vars = b.vars ++ [GoVal.vint l, GoVal.vint off]) ∧
    (∀ (l off : Int) (b : BState), 0 < l → off ≤ 0 →
       (Pagination.build ⟨some l, off⟩ b).sql
         = b.sql ++ " LIMIT " ++ placeholder (b.vars.length + 1) ∧
       (Pagination.build ⟨some l, off⟩ b).vars = b.vars ++ [GoVal.vint l]) ∧
    (∀ (off : Int) (b : BState), 0 < off →
       (Pagination.build ⟨none, off⟩ b).sql
         = b.sql ++ " OFFSET " ++ placeholder (b.vars.length + 1) ∧
       (Pagination.build ⟨none, off⟩ b).vars = b.vars ++ [GoVal.vint off]) ∧
    (∀ (l off : Int) (b : BState), l ≤ 0 → 0 < off →
       (Pagination.build ⟨some l, off⟩ b).sql
         = b.sql ++ " OFFSET " ++ placeholder (b.vars.length + 1) ∧
       (Pagination.build ⟨some l, off⟩ b).vars = b.vars ++ [GoVal.vint off]) ∧
    (∀ (l off : Int) (b : BState), l ≤ 0 → off ≤ 0 →
       Pagination.build ⟨some l, off⟩ b = b) ∧
    (∀ (off : Int) (b : BState), off ≤ 0 → Pagination.build ⟨none, off⟩ b = b) ∧
    Pagination.build ⟨some 10, 20⟩ mkB
      = { sql := " LIMIT ?1 OFFSET ?2", vars := [GoVal.vint 10, GoVal.vint 20], errs := [] } ∧
    Pagination.build ⟨none, 0⟩ mkB = mkB := by
  have step : ∀ (l off : Int) (b : BState), Pagination.build ⟨some l, off⟩ b
      = if 0 < off then
          addVar [GoVal.vint off] (writeString " OFFSET "
            (if 0 < l then addVar [GoVal.vint l] (writeString " LIMIT " b) else b))
        else (if 0 < l then addVar [GoVal.vint l] (writeString " LIMIT " b) else b) :=
    fun _ _ _ => rfl
  have stepN : ∀ (off : Int) (b : BState), Pagination.build ⟨none, off⟩ b
      = if 0 < off then addVar [GoVal.vint off] (writeString " OFFSET " b) else b :=
    fun _ _ => rfl
  refine ⟨?_, ?_, ?_, ?_, ?_, ?_, rfl, rfl⟩
  · intro l off b hl hoff
    rw [step, if_pos hl, if_pos hoff]
    constructor <;> simp [addVar_single_eq, writeString]
  · intro l off b hl hoff
    rw [step, if_pos hl, if_neg (by omega)]
    constructor <;> simp [addVar_single_eq, writeString]
  · intro off b hoff
    rw [stepN, if_pos hoff]
    constructor <;> simp [addVar_single_eq, writeString]
  · intro l off b hl hoff
    rw [step, if_pos hoff, if_neg (by omega)]
    constructor <;> simp [addVar_single_eq, writeString]
  · intro l off b hl hoff
    rw [step, if_neg (by omega), if_neg (by omega)]
  · intro off b hoff
    rw [stepN, if_neg (by omega)]

/-- C8 witness: the both-halves statement applied at limit 10, offset 20, and
the set-but-zero-limit statement applied at limit 0, offset 20, both on the
empty sink. -/
theorem C8_witness :
    ((0 : Int) < 10 ∧ (0 : Int) < 20 ∧
      (Pagination.build ⟨some 10, 20⟩ mkB).sql
        = mkB.sql ++ " LIMIT " ++ placeholder (mkB.vars.length + 1)
            ++ " OFFSET " ++ placeholder (mkB.vars.length + 2)) ∧
    ((0 : Int) ≤ 0 ∧ (0 : Int) < 20 ∧
      (Pagination.build ⟨some 0, 20⟩ mkB).sql
        = mkB.sql ++ " OFFSET " ++ placeholder (mkB.vars.length + 1) ∧
      (Pagination.build ⟨some 0, 20⟩ mkB).vars = mkB.vars ++ [GoVal.vint 20]) :=
  ⟨⟨by decide, by decide,
    (C8_pagination_fragments.1 10 20 mkB (by decide) (by decide)).1⟩,
   ⟨by decide, by decide,
    (C8_pagination_fragments.2.2.2.1 0 20 mkB (by decide) (by decide)).1,
    (C8_pagination_fragments.2.2.2.1 0 20 mkB (by decide) (by decide)).2⟩⟩

/-- C9: the `And` constructor with exactly one expression returns it unchanged
unless it is an `OrExpr`, in which case it wraps it as a single-child
`AndExpr`; placed as a later sibling, the wrapped `And(Or(x))` is preceded by
the list's default joiner while a bare single-child `Or(x)` forces ` OR `. -/
theorem C9_and_single_unwrap :
    (∀ e : Expr, isOrExpr e = false → andCtor [e] = some e) ∧
    (∀ es : List Expr, andCtor [Expr.orExpr es] = some (Expr.andExpr [Expr.orExpr es])) ∧
    (∀ (p x : Expr) (dflt : String) (b : BState),
       buildExprs [p, Expr.andExpr [Expr.orExpr [x]]] dflt b
         = build (Expr.andExpr [Expr.orExpr [x]]) (writeString dflt (build p b)) ∧
       buildExprs [p, Expr.orExpr [x]] dflt b
         = build (Expr.orExpr [x]) (writeString " OR " (build p b))) := by
  refine ⟨?_, fun es => rfl, fun p x dflt b => ⟨rfl, rfl⟩⟩
  intro e h
  cases e <;> first | rfl | simp_all [isOrExpr]

/-- C9 witness: the unchanged-return statement applied to a concrete non-Or
expression. -/
theorem C9_witness :
    isOrExpr (Expr.eq "a" (GoVal.vint 1)) = false ∧
    andCtor [Expr.eq "a" (GoVal.vint 1)] = some (Expr.eq "a" (GoVal.vint 1)) :=
  ⟨rfl, C9_and_single_unwrap.1 (Expr.eq "a" (GoVal.vint 1)) rfl⟩

/-- C10: for every recognized list-typed value of length zero, `Eq` renders
`` `c` IN (NULL) `` with zero parameters and `Neq` renders
`` `c` NOT IN (NULL) `` with zero parameters (not the ` IS NOT NULL` form used
for nil values); all eight recognized empty list shapes are covered. -/
theorem C10_empty_recognized_lists :
    (∀ (c : String) (b : BState) (L : GoVal), asList L = some [] →
       (build (Expr.eq c L) b).sql = b.sql ++ "`" ++ c ++ "`" ++ " IN (NULL)" ∧
       (build (Expr.eq c L) b).vars = b.vars ∧
       (build (Expr.neq c L) b).sql = b.sql ++ "`" ++ c ++ "`" ++ " NOT IN (NULL)" ∧
       (build (Expr.neq c L) b).vars = b.vars) ∧
    (asList (GoVal.listStr []) = some [] ∧ asList (GoVal.listInt []) = some [] ∧
     asList (GoVal.listInt32 []) = some [] ∧ asList (GoVal.listInt64 []) = some [] ∧
     asList (GoVal.listUInt []) = some [] ∧ asList (GoVal.listUInt32 []) = some [] ∧
     asList (GoVal.listUInt64 []) = some [] ∧ asList (GoVal.listAny []) = some []) := by
  refine ⟨?_, rfl, rfl, rfl, rfl, rfl, rfl, rfl, rfl⟩
  intro c b L h
  have s1 : build (Expr.eq c L) b
      = (match asList L with
         | some xs => buildEqArray xs (writeQuoted c b)
         | none =>
           if eqNil L then writeString " IS NULL" (writeQuoted c b)
           else addVar [L] (writeString " = " (writeQuoted c b))) := rfl
  have s2 : build (Expr.neq c L) b
      = (match asList L with
         | some xs => buildNeqArray xs (writeQuoted c b)
         | none =>
           if eqNil L then writeString " IS NOT NULL" (writeQuoted c b)
           else addVar [L] (writeString " <> " (writeQuoted c b))) := rfl
  rw [s1, s2, h]
  exact ⟨rfl, rfl, rfl, rfl⟩

/-- C10 witness: the empty-list statement applied to an empty string list. -/
theorem C10_witness :
    asList (GoVal.listStr []) = some ([] : List GoVal) ∧
    (build (Expr.eq "id" (GoVal.listStr [])) mkB).sql
      = mkB.sql ++ "`" ++ "id" ++ "`" ++ " IN (NULL)" :=
  ⟨rfl, (C10_empty_recognized_lists.1 "id" mkB (GoVal.listStr []) rfl).1⟩

end Clause
